import Mathlib

/-
Verification of the threading demo in src/thread/jthread.cpp.

The worker routine is embedded as a pure function from its integer id and
the two clock readings (start and end, in nanoseconds, as returned by
std::chrono::high_resolution_clock) to the sequence of observable events it
performs: clock reads, lines written to std::cout, a scheduler yield, and
timed sleeps. The driver (main) is embedded as the sequence of driver steps
it executes: three launches, three joins, and a return.
-/

namespace JThread

/-- An observable event of the worker routine: a clock read (with the value
read), a line written to standard output, a call to
std::this_thread::yield, or a call to sleep_for with a millisecond count. -/
inductive Event where
  | readClock (t : Int)
  | out (s : String)
  | yield
  | sleepMs (n : Nat)
deriving DecidableEq

/-- The line `std::cout << "Thread " << id << " is yielding...\n"` writes. -/
def yieldLine (id : Int) : String :=
  "Thread " ++ toString id ++ " is yielding...\n"

/-- The summary line the worker writes after the loop, for a given id and
elapsed millisecond count. -/
def summaryLine (id : Int) (ms : Int) : String :=
  "Thread " ++ toString id ++ " finished execution in " ++ toString ms
    ++ " milliseconds\n"

/-- One iteration of the worker loop body: if id == 1, the yield notice and
the yield; then, unconditionally, sleep_for(100ms). -/
def loopBody (id : Int) : List Event :=
  (if id = 1 then [Event.out (yieldLine id), Event.yield] else [])
    ++ [Event.sleepMs 100]

/-- The events of the `for (int i = 0; i < n; ++i)` loop of the worker:
n executions of the loop body, in order. -/
def forLoop (id : Int) : Nat → List Event
  | 0 => []
  | n + 1 => forLoop id n ++ loopBody id

/-- duration_cast to milliseconds of (ending - starting) nanoseconds.
duration_cast between integral chrono durations truncates toward zero,
which is Int.tdiv. -/
def durationMs (starting ending : Int) : Int :=
  Int.tdiv (ending - starting) 1000000

/-- The full event trace of `worker(id)` given the two values the
high-resolution clock returns: read the start time, run the 10-iteration
loop, read the end time, and print the summary line with the elapsed
duration in whole milliseconds. -/
def worker (id starting ending : Int) : List Event :=
  Event.readClock starting ::
    (forLoop id 10 ++
      [Event.readClock ending,
       Event.out (summaryLine id (durationMs starting ending))])

/-- The lines a trace writes to standard output, in order. -/
def outputs (tr : List Event) : List String :=
  tr.filterMap fun e =>
    match e with
    | Event.out s => some s
    | _ => none

/-- Total number of milliseconds of sleep a trace requests. -/
def sleepMsTotal (tr : List Event) : Nat :=
  (tr.map fun e =>
    match e with
    | Event.sleepMs n => n
    | _ => 0).sum

/-- A step of the driver (main): starting a thread on worker with an id,
joining the thread with an id, or returning an exit code. -/
inductive DriverStep where
  | launch (id : Int)
  | join (id : Int)
  | ret (code : Int)
deriving DecidableEq

/-- The steps main executes, in program order: construct t1, t2, t3 on
worker with ids 1, 2, 3, then t1.join(), t2.join(), t3.join(), then
return 0. -/
def mainSteps : List DriverStep :=
  [DriverStep.launch 1, DriverStep.launch 2, DriverStep.launch 3,
   DriverStep.join 1, DriverStep.join 2, DriverStep.join 3,
   DriverStep.ret 0]

/-- The ids main launches worker threads with, in order. -/
def launchIds (steps : List DriverStep) : List Int :=
  steps.filterMap fun s =>
    match s with
    | DriverStep.launch i => some i
    | _ => none

/-- The ids main joins, in order. -/
def joinIds (steps : List DriverStep) : List Int :=
  steps.filterMap fun s =>
    match s with
    | DriverStep.join i => some i
    | _ => none

/-- The exit code of main. -/
def mainExitCode : Int := 0

/- Basic computation lemmas about outputs. -/

lemma outputs_nil : outputs [] = [] := rfl

lemma outputs_cons_out (s : String) (l : List Event) :
    outputs (Event.out s :: l) = s :: outputs l := rfl

lemma outputs_cons_readClock (t : Int) (l : List Event) :
    outputs (Event.readClock t :: l) = outputs l := rfl

lemma outputs_cons_yield (l : List Event) :
    outputs (Event.yield :: l) = outputs l := rfl

lemma outputs_cons_sleepMs (n : Nat) (l : List Event) :
    outputs (Event.sleepMs n :: l) = outputs l := rfl

lemma outputs_append (l₁ l₂ : List Event) :
    outputs (l₁ ++ l₂) = outputs l₁ ++ outputs l₂ :=
  List.filterMap_append l₁ l₂ _

/-- The loop of worker writes the yield notice n times when id = 1 and
nothing otherwise. -/
lemma outputs_forLoop (id : Int) (n : Nat) :
    outputs (forLoop id n) =
      if id = 1 then List.replicate n (yieldLine id) else [] := by
  induction n with
  | zero => by_cases h : id = 1 <;> simp [forLoop, outputs_nil, h]
  | succ n ih =>
    by_cases h : id = 1
    · subst h
      simp [forLoop, outputs_append, ih, loopBody, outputs_cons_out,
        outputs_cons_yield, outputs_cons_sleepMs, outputs_nil,
        List.replicate_succ']
    · simp [forLoop, outputs_append, ih, h, loopBody,
        outputs_cons_sleepMs, outputs_nil]

/-- The summary line is never equal to a yield-notice line with the same
id: their lengths differ. -/
lemma summaryLine_ne_yieldLine (id ms : Int) :
    summaryLine id ms ≠ yieldLine id := by
  intro h
  have hlen := congrArg String.length h
  rw [summaryLine, yieldLine] at hlen
  simp only [String.length_append] at hlen
  have h1 : "Thread ".length = 7 := rfl
  have h2 : " finished execution in ".length = 23 := rfl
  have h3 : " milliseconds\n".length = 14 := rfl
  have h4 : " is yielding...\n".length = 16 := rfl
  rw [h1, h2, h3, h4] at hlen
  omega

/-- Event counts over the loop: n iterations contribute n copies of the
counts of one loop body. -/
lemma count_forLoop (id : Int) (e : Event) (n : Nat) :
    (forLoop id n).count e = n * (loopBody id).count e := by
  induction n with
  | zero => simp [forLoop]
  | succ n ih => simp [forLoop, List.count_append, ih, Nat.succ_mul]

/-- Closed form of the lines the worker writes: the yield notice 10 times
when id = 1 (nothing otherwise), then the summary line. The whole output
is a function of the id and the two clock readings alone. -/
lemma outputs_worker (id starting ending : Int) :
    outputs (worker id starting ending) =
      (if id = 1 then List.replicate 10 (yieldLine id) else [])
        ++ [summaryLine id (durationMs starting ending)] := by
  simp [worker, outputs_cons_readClock, outputs_append, outputs_forLoop,
    outputs_cons_out, outputs_nil]

/-- The last event of a worker trace is the write of the summary line. -/
lemma worker_getLast (id starting ending : Int) :
    (worker id starting ending).getLast?
      = some (Event.out (summaryLine id (durationMs starting ending))) := by
  have h : worker id starting ending
      = (Event.readClock starting ::
          (forLoop id 10 ++ [Event.readClock ending]))
        ++ [Event.out (summaryLine id (durationMs starting ending))] := by
    simp [worker]
  rw [h, List.getLast?_concat]

lemma sleepMsTotal_append (l₁ l₂ : List Event) :
    sleepMsTotal (l₁ ++ l₂) = sleepMsTotal l₁ + sleepMsTotal l₂ := by
  simp [sleepMsTotal]

lemma sleepMsTotal_loopBody (id : Int) :
    sleepMsTotal (loopBody id) = 100 := by
  by_cases h : id = 1 <;> simp [loopBody, sleepMsTotal, h]

lemma sleepMsTotal_forLoop (id : Int) (n : Nat) :
    sleepMsTotal (forLoop id n) = n * 100 := by
  induction n with
  | zero => rfl
  | succ n ih =>
    rw [forLoop, sleepMsTotal_append, ih, sleepMsTotal_loopBody]
    ring

/-- Each worker trace requests exactly 1000 milliseconds of sleep in
total: 10 iterations of 100 milliseconds each. -/
lemma sleepMsTotal_worker (id starting ending : Int) :
    sleepMsTotal (worker id starting ending) = 1000 := by
  have h : worker id starting ending
      = [Event.readClock starting] ++ forLoop id 10
          ++ [Event.readClock ending,
              Event.out (summaryLine id (durationMs starting ending))] := by
    simp [worker]
  rw [h, sleepMsTotal_append, sleepMsTotal_append, sleepMsTotal_forLoop]
  simp [sleepMsTotal]

/-- Claim C1: for every integer id, the worker loop runs its body exactly
10 times; each iteration sleeps 100 milliseconds exactly once
(unconditionally, as the last action of the body, after the optional
yield), and a yield happens once per iteration if and only if id = 1,
preceded by the yield-notice line. -/
theorem worker_loop_structure (id : Int) :
    (forLoop id 10).count (Event.sleepMs 100) = 10 ∧
    (forLoop id 10).count Event.yield = (if id = 1 then 10 else 0) ∧
    loopBody id =
      (if id = 1 then [Event.out (yieldLine id), Event.yield] else [])
        ++ [Event.sleepMs 100] := by
  refine ⟨?_, ?_, rfl⟩ <;> rw [count_forLoop] <;> by_cases h : id = 1
  · subst h; decide
  · have hb : loopBody id = [Event.sleepMs 100] := by simp [loopBody, h]
    rw [hb]; simp
  · subst h; decide
  · have hb : loopBody id = [Event.sleepMs 100] := by simp [loopBody, h]
    rw [hb]; simp [h]

/-- Claim C2: in a complete run, the task with id 1 writes the line
"Thread 1 is yielding...\n" exactly 10 times, once per iteration and each
followed in the same iteration by the sleep (the body is notice, yield,
sleep); the tasks with ids 2 and 3 write no yield-notice line at all
(their only output is the summary line). -/
theorem yield_notice_counts (s1 e1 s2 e2 s3 e3 : Int) :
    (outputs (worker 1 s1 e1)).count (yieldLine 1) = 10 ∧
    outputs (worker 2 s2 e2) = [summaryLine 2 (durationMs s2 e2)] ∧
    outputs (worker 3 s3 e3) = [summaryLine 3 (durationMs s3 e3)] ∧
    loopBody 1 = [Event.out (yieldLine 1), Event.yield, Event.sleepMs 100] := by
  refine ⟨?_, ?_, ?_, rfl⟩
  · rw [outputs_worker, List.count_append]
    simp [List.count_replicate, List.count_cons,
      (summaryLine_ne_yieldLine 1 (durationMs s1 e1)).symm]
  · rw [outputs_worker]; norm_num
  · rw [outputs_worker]; norm_num

/-- Claim C3: every task writes the summary line for its own id and its
own elapsed milliseconds exactly once among its output lines, and that
write is the last event of the task, after the 10-iteration loop. -/
theorem summary_line_once (id starting ending : Int) :
    (outputs (worker id starting ending)).count
        (summaryLine id (durationMs starting ending)) = 1 ∧
    (worker id starting ending).getLast?
      = some (Event.out (summaryLine id (durationMs starting ending))) := by
  refine ⟨?_, worker_getLast id starting ending⟩
  rw [outputs_worker, List.count_append]
  by_cases h : id = 1 <;>
    simp [h, List.count_replicate, List.count_cons,
      summaryLine_ne_yieldLine]

/-- Claim C4: main launches exactly the worker ids 1, 2, 3 in that order,
joins exactly the ids 1, 2, 3 in that order, and its last step is a
return with exit code 0; the exit code is 0. -/
theorem driver_structure :
    launchIds mainSteps = [1, 2, 3] ∧
    joinIds mainSteps = [1, 2, 3] ∧
    mainSteps.getLast? = some (DriverStep.ret mainExitCode) ∧
    mainExitCode = 0 := by
  refine ⟨rfl, rfl, rfl, rfl⟩

/-- Claim C5: the two timestamps come from the clock reads of the worker
trace; if the clock is monotonic (the later read is not smaller), the
elapsed duration is non-negative and so is the reported millisecond
count, which appears in the summary line the worker writes. -/
theorem elapsed_nonneg (id starting ending : Int) (h : starting ≤ ending) :
    0 ≤ ending - starting ∧ 0 ≤ durationMs starting ending ∧
    Event.out (summaryLine id (durationMs starting ending))
      ∈ worker id starting ending := by
  refine ⟨by omega, ?_, ?_⟩
  · unfold durationMs
    rw [Int.tdiv_eq_ediv (by omega) (by norm_num)]
    exact Int.ediv_nonneg (by omega) (by norm_num)
  · simp [worker, List.mem_append, List.mem_cons]

/-- Witness for Claim C5 at starting = 0, ending = 5. -/
theorem elapsed_nonneg_witness :
    0 ≤ (5 : Int) - 0 ∧ 0 ≤ durationMs 0 5 ∧
    Event.out (summaryLine 1 (durationMs 0 5)) ∈ worker 1 0 5 :=
  elapsed_nonneg 1 0 5 (by decide)

/-- Claim C6: the worker trace reads the start timestamp before the first
loop iteration, reads the end timestamp after the last, and the summary
line reports exactly (ending - starting) nanoseconds converted to whole
milliseconds by truncation toward zero (Int.tdiv by 1000000). -/
theorem elapsed_computed_from_clock_reads (id starting ending : Int) :
    worker id starting ending =
      Event.readClock starting ::
        (forLoop id 10 ++
          [Event.readClock ending,
           Event.out
             (summaryLine id (Int.tdiv (ending - starting) 1000000))]) := rfl

/-- Claim C7: in the driver step sequence, each of the three joins occurs
strictly before the return step, and a joined (completed) worker has
written its summary line, since that write is the final event of every
worker trace. -/
theorem join_before_return (id starting ending : Int) :
    mainSteps.indexOf (DriverStep.join 1)
        < mainSteps.indexOf (DriverStep.ret 0) ∧
    mainSteps.indexOf (DriverStep.join 2)
        < mainSteps.indexOf (DriverStep.ret 0) ∧
    mainSteps.indexOf (DriverStep.join 3)
        < mainSteps.indexOf (DriverStep.ret 0) ∧
    (worker id starting ending).getLast?
      = some (Event.out (summaryLine id (durationMs starting ending))) :=
  ⟨by decide, by decide, by decide, worker_getLast id starting ending⟩

/-- Claim C8: the worker trace requests 1000 milliseconds of sleep in
total; when the real elapsed time covers at least the requested sleeps
(sleep_for suspends for at least the requested duration) and normal
scheduling keeps it under 1500 milliseconds, the reported value is at
least 1000 and strictly less than 1500. -/
theorem elapsed_in_bounds (id starting ending : Int)
    (hsleep : 1000000 * (sleepMsTotal (worker id starting ending) : Int)
        ≤ ending - starting)
    (hsched : ending - starting < 1500000000) :
    1000 ≤ durationMs starting ending ∧
    durationMs starting ending < 1500 := by
  rw [sleepMsTotal_worker] at hsleep
  norm_num at hsleep
  unfold durationMs
  rw [Int.tdiv_eq_ediv (by omega) (by norm_num)]
  omega

/-- Witness for Claim C8 at starting = 0, ending = 1234000000 ns. -/
theorem elapsed_in_bounds_witness :
    1000 ≤ durationMs 0 1234000000 ∧ durationMs 0 1234000000 < 1500 :=
  elapsed_in_bounds 1 0 1234000000 (by decide) (by decide)

/-- Claim C9: for a non-negative elapsed duration the truncating division
agrees with floor division, so the reported millisecond count is the
floor of the elapsed time in milliseconds; at 1099.9 ms (1099900000 ns)
the report is 1099, not rounded up. -/
theorem duration_truncates_toward_zero (starting ending : Int)
    (h : starting ≤ ending) :
    durationMs starting ending = Int.fdiv (ending - starting) 1000000 := by
  unfold durationMs
  rw [Int.tdiv_eq_ediv (by omega) (by norm_num),
    Int.fdiv_eq_ediv _ (by norm_num)]

/-- Witness for Claim C9 at an elapsed time of 1099.9 milliseconds. -/
theorem duration_truncates_toward_zero_witness :
    durationMs 0 1099900000 = Int.fdiv (1099900000 - 0) 1000000 ∧
    durationMs 0 1099900000 = 1099 :=
  ⟨duration_truncates_toward_zero 0 1099900000 (by decide), by decide⟩

/-- Claim C10: the output of a worker invocation is determined by the id
and the two clock readings alone, in the closed form below: two
invocations with the same id and the same clock readings write the same
line sequence, and no other input or shared state enters the function. -/
theorem worker_outputs_deterministic (id starting ending : Int) :
    outputs (worker id starting ending) =
      (if id = 1 then List.replicate 10 (yieldLine id) else [])
        ++ [summaryLine id (durationMs starting ending)] :=
  outputs_worker id starting ending

end JThread
